import Mathlib

/-
Shallow embedding of src/jolt.py, a CLI tool that fetches failed GitHub
Actions workflow runs, filters them (by PR number or by workflow-name
substring), extracts failed jobs, and renders a report.

Modelling conventions:
  - HTTP fetches are abstracted: the list of runs returned by the API, and
    the jobs-per-run mapping, are parameters of the embedded functions.
  - Timestamps handed to format_time_ago are represented by the elapsed
    whole seconds (now minus timestamp) as an Int; Python timedelta
    normalization (days = floor division by 86400, seconds = the
    non-negative remainder) is mirrored by Int.ediv and Int.emod, which
    agree with floor division and non-negative remainder for the positive
    divisors used here.
  - ISO-8601 strings of the form YYYY-MM-DDTHH:MM:SSZ are parsed to epoch
    seconds with the standard days-from-civil algorithm, mirroring
    datetime.fromisoformat on the whole-second inputs the claims use.
-/

namespace Jolt

/-- A step of a job: name and conclusion, as deserialized from the API. -/
structure Step where
  name : String
  conclusion : String
deriving DecidableEq

/-- A job of a workflow run. started_at and completed_at are nullable
timestamps (Python job.get returns None when absent). -/
structure Job where
  name : String
  conclusion : String
  started_at : Option String
  completed_at : Option String
  html_url : String
  steps : List Step
deriving DecidableEq

/-- An entry of the pull_requests list embedded in a run; the number field
is read with dict.get and may be absent. -/
structure PullRef where
  number : Option Int
deriving DecidableEq

/-- A workflow run as deserialized from one API response entry. -/
structure WorkflowRun where
  id : Nat
  name : String
  run_number : Nat
  status : String
  head_branch : String
  head_sha : String
  created_at : String
  html_url : String
  pull_requests : List PullRef
deriving DecidableEq

/-- format_time_ago from jolt.py, as a function of the elapsed seconds
(now minus the parsed timestamp). delta.days is the floor of the elapsed
seconds divided by 86400 and delta.seconds is the non-negative remainder,
exactly Int.ediv and Int.emod for the positive divisor 86400. -/
def format_time_ago (elapsed : Int) : String :=
  let days := elapsed / 86400
  let secs := elapsed % 86400
  if 0 < days then toString days ++ "d ago"
  else if 3600 ≤ secs then toString (secs / 3600) ++ "h ago"
  else if 60 ≤ secs then toString (secs / 60) ++ "m ago"
  else "just now"

/-- Whether the character list hay starts with the character list needle
(helper for the Python substring operator in). -/
def strStartsWith : List Char → List Char → Bool
  | [], _ => true
  | _ :: _, [] => false
  | a :: as, b :: bs => a == b && strStartsWith as bs

/-- Whether needle occurs as a contiguous sublist of the second argument
(the Python expression needle in hay on strings). -/
def hasSubList (needle : List Char) : List Char → Bool
  | [] => needle.isEmpty
  | c :: rest => strStartsWith needle (c :: rest) || hasSubList needle rest

/-- The Python membership test needle in hay on strings. -/
def strContains (hay needle : String) : Bool :=
  hasSubList needle.toList hay.toList

/-- Python str.lower, character by character (ASCII letters, the range
both renderings agree on for the workflow names at hand). -/
def strLower (s : String) : String :=
  String.mk (s.toList.map Char.toLower)

/-- get_workflow_runs from jolt.py after the HTTP fetch: fetched is the
workflow_runs list of the response; when workflow_name is truthy (given
and non-empty) the list is narrowed to runs whose lowercased name contains
the lowercased filter as a substring. -/
def get_workflow_runs (fetched : List WorkflowRun) (workflow_name : Option String) :
    List WorkflowRun :=
  match workflow_name with
  | none => fetched
  | some wn =>
    if wn == "" then fetched
    else fetched.filter fun r => strContains (strLower r.name) (strLower wn)

/-- The head of a pull request, as resolved by the PR-details call in
get_pr_workflow_runs (pr.head.sha and pr.head.ref). -/
structure PRHead where
  sha : String
  ref : String
deriving DecidableEq

/-- get_pr_workflow_runs from jolt.py after the two HTTP fetches: head is
the resolved PR head and fetched the workflow_runs list of the runs
response; a run is retained when its head_sha equals the head sha of the
PR, or some entry of its pull_requests list has the target PR number. -/
def get_pr_workflow_runs (head : PRHead) (pr_number : Int)
    (fetched : List WorkflowRun) : List WorkflowRun :=
  fetched.filter fun r =>
    r.head_sha == head.sha
      || r.pull_requests.any fun q => q.number == some pr_number

/-- get_jobs_for_run from jolt.py: jobsOf abstracts the HTTP fetch of the
jobs list for a run id. -/
def get_jobs_for_run (jobsOf : Nat → List Job) (run_id : Nat) : List Job :=
  jobsOf run_id

/-- get_failed_jobs from jolt.py: the jobs of the run whose conclusion is
failure. -/
def get_failed_jobs (jobsOf : Nat → List Job) (run_id : Nat) : List Job :=
  (get_jobs_for_run jobsOf run_id).filter fun j => j.conclusion == "failure"

/-- Python str.split with the single-character separator sep, on character
lists: always returns at least one (possibly empty) group. -/
def splitChar (sep : Char) : List Char → List (List Char)
  | [] => [[]]
  | c :: rest =>
    if c == sep then [] :: splitChar sep rest
    else
      match splitChar sep rest with
      | [] => [[c]]
      | g :: gs => (c :: g) :: gs

/-- Value of a list of decimal digit characters. -/
def digitsVal (cs : List Char) : Nat :=
  cs.foldl (fun a c => a * 10 + (c.toNat - 48)) 0

/-- Days since 1970-01-01 of the civil date y-m-d, by the standard
days-from-civil algorithm (floor divisions). -/
def daysFromCivil (y m d : Nat) : Int :=
  let yy : Int := if m ≤ 2 then (y : Int) - 1 else (y : Int)
  let era : Int := yy / 400
  let yoe : Int := yy - era * 400
  let mp : Int := if 2 < m then (m : Int) - 3 else (m : Int) + 9
  let doy : Int := (153 * mp + 2) / 5 + (d : Int) - 1
  let doe : Int := yoe * 365 + yoe / 4 - yoe / 100 + doy
  era * 146097 + doe - 719468

/-- Epoch seconds of an ISO-8601 timestamp of the form YYYY-MM-DDTHH:MM:SSZ,
the shape jolt.py hands to datetime.fromisoformat after replacing Z with a
zero UTC offset (malformed strings map to 0; the code would raise there). -/
def parseTs (s : String) : Int :=
  match splitChar 'T' s.toList with
  | [d, t] =>
    match splitChar '-' d, splitChar ':' (t.filter fun c => c != 'Z') with
    | [y, mo, da], [h, mi, se] =>
      daysFromCivil (digitsVal y) (digitsVal mo) (digitsVal da) * 86400
        + ((digitsVal h * 3600 + digitsVal mi * 60 + digitsVal se : Nat) : Int)
    | _, _ => 0
  | _ => 0

/-- Left-pad a natural number to two digits, as the %02d fields of the
Python str(timedelta) rendering. -/
def twoDigits (n : Nat) : String :=
  if n < 10 then "0" ++ toString n else toString n

/-- Python str(timedelta) for a whole-second delta of total seconds:
hours:minutes:seconds from the normalized non-negative seconds remainder,
preceded by the day count (with plural handling) when it is non-zero.
jolt.py splits the microsecond suffix off; for the whole-second
timestamps modelled here there is none. -/
def timedeltaStr (total : Int) : String :=
  let days := total / 86400
  let secs := (total % 86400).toNat
  let hms := toString (secs / 3600) ++ ":" ++ twoDigits (secs % 3600 / 60)
    ++ ":" ++ twoDigits (secs % 60)
  if days == 0 then hms
  else if days == 1 || days == -1 then toString days ++ " day, " ++ hms
  else toString days ++ " days, " ++ hms

/-- The duration cell of a failed-job row in display_failures: when both
timestamps are truthy (present and non-empty, the Python condition
job.get started_at and job.get completed_at), the rendering of the parsed
difference; otherwise the literal dash. -/
def durationOf (j : Job) : String :=
  match j.started_at, j.completed_at with
  | some s, some e =>
    if s.isEmpty || e.isEmpty then "-"
    else timedeltaStr (parseTs e - parseTs s)
  | _, _ => "-"

/-- The failed-step cell of a failed-job row in display_failures: the name
of the first step whose conclusion is failure, or Unknown when there is
none (a job without a steps field is modelled by the empty list, the
default of job.get). -/
def failedStepName (steps : List Step) : String :=
  match steps.find? (fun s => s.conclusion == "failure") with
  | some s => s.name
  | none => "Unknown"

/-- One row of the failed-jobs table of display_failures. -/
structure JobRow where
  job_name : String
  duration : String
  failed_step : String
  url : String
deriving DecidableEq

/-- The row display_failures adds for a failed job. -/
def renderJob (j : Job) : JobRow :=
  ⟨j.name, durationOf j, failedStepName j.steps, j.html_url⟩

/-- The panel display_failures prints for a run: the run header data and
the failed-jobs table. -/
structure RunPanel where
  run : WorkflowRun
  rows : List JobRow
deriving DecidableEq

/-- display_failures from jolt.py as the list of panels it prints: for
each run in order it fetches the failed jobs, skips the run when there are
none, and otherwise renders the run with one row per failed job. -/
def display_failures (jobsOf : Nat → List Job) : List WorkflowRun → List RunPanel
  | [] => []
  | r :: rest =>
    let fj := get_failed_jobs jobsOf r.id
    if fj.isEmpty then display_failures jobsOf rest
    else ⟨r, fj.map renderJob⟩ :: display_failures jobsOf rest

/-- The run ids for which display_failures performs a jobs fetch, in loop
order: every run of its argument list is fetched, skipped or not. -/
def display_fetch_trace (jobsOf : Nat → List Job) : List WorkflowRun → List Nat
  | [] => []
  | r :: rest => r.id :: display_fetch_trace jobsOf rest

/-- The Python slice lst up to k (lst[:k]): the first k elements for
non-negative k, and all but the last |k| elements (clamped at zero) for
negative k. -/
def pySliceTo (l : List α) (k : Int) : List α :=
  if 0 ≤ k then l.take k.toNat
  else l.take (l.length - (-k).toNat)

/-- The hand-off at the end of main in jolt.py: whichever retrieval path
produced the fetched runs, display_failures receives the slice of the
list up to limit. -/
def main_pipeline (jobsOf : Nat → List Job) (fetched : List WorkflowRun)
    (limit : Int) : List RunPanel :=
  display_failures jobsOf (pySliceTo fetched limit)

/-- Python repo.split on the slash separator, as a list of strings. -/
def split_slash (s : String) : List String :=
  (splitChar '/' s.toList).map fun cs => String.mk cs

/-- The tuple unpacking owner, repo_name = repo.split in main: succeeds
exactly when the split has exactly two components (a ValueError is the
none case). -/
def parseRepoArg (s : String) : Option (String × String) :=
  match split_slash s with
  | [a, b] => some (a, b)
  | _ => none

/-- Python truthiness of the token option: None and the empty string are
falsy. -/
def tokenFalsy : Option String → Bool
  | none => true
  | some t => t.isEmpty

/-- Outcome of the validation prologue of main: either an early exit with
an exit code (no GitHubClient is constructed and no HTTP request is made
on this branch), or the parsed owner and repository name with which the
network pipeline proceeds. -/
inductive PreflightResult where
  | exitWithError (code : Nat)
  | proceed (owner repoName : String)
deriving DecidableEq

/-- The validation prologue of main in jolt.py: exit 1 when the token is
falsy; then exit 1 when the repository argument does not split into
exactly two components; otherwise proceed to the network pipeline. -/
def main_preflight (token : Option String) (repo : String) : PreflightResult :=
  if tokenFalsy token then .exitWithError 1
  else
    match parseRepoArg repo with
    | none => .exitWithError 1
    | some (o, r) => .proceed o r

/-- A sample run used by concrete witnesses and counterexamples. -/
def mkRun (i : Nat) (nm : String) : WorkflowRun :=
  ⟨i, nm, i, "failure", "main", "0123abc", "2024-01-01T00:00:00Z", "u", []⟩

end Jolt

namespace Jolt

/-- Claim C1: format_time_ago renders the elapsed time as the claim states:
when the elapsed whole days (floor) are positive it is the day count
followed by d ago; otherwise, with secs the non-negative seconds remainder
of the elapsed time, it is the floor of secs divided by 3600 followed by
h ago when secs is at least 3600, the floor of secs divided by 60 followed
by m ago when secs is at least 60, and the literal just now below that.
In particular 86400 elapsed seconds give 1d ago, 3600 give 1h ago, 3599
give 59m ago, 60 give 1m ago and 59 give just now. -/
theorem format_time_ago_spec (e : Int) :
    (0 < e / 86400 → format_time_ago e = toString (e / 86400) ++ "d ago")
    ∧ (e / 86400 ≤ 0 → 3600 ≤ e % 86400 →
        format_time_ago e = toString ((e % 86400) / 3600) ++ "h ago")
    ∧ (e / 86400 ≤ 0 → e % 86400 < 3600 → 60 ≤ e % 86400 →
        format_time_ago e = toString ((e % 86400) / 60) ++ "m ago")
    ∧ (e / 86400 ≤ 0 → e % 86400 < 60 → format_time_ago e = "just now")
    ∧ format_time_ago 86400 = "1d ago"
    ∧ format_time_ago 3600 = "1h ago"
    ∧ format_time_ago 3599 = "59m ago"
    ∧ format_time_ago 60 = "1m ago"
    ∧ format_time_ago 59 = "just now" := by
  refine ⟨?_, ?_, ?_, ?_, by decide, by decide, by decide, by decide, by decide⟩
  · intro h
    simp only [format_time_ago, if_pos h]
  · intro h1 h2
    simp only [format_time_ago]
    rw [if_neg (by omega), if_pos h2]
  · intro h1 h2 h3
    simp only [format_time_ago]
    rw [if_neg (by omega), if_neg (by omega), if_pos h3]
  · intro h1 h2
    simp only [format_time_ago]
    rw [if_neg (by omega), if_neg (by omega), if_neg (by omega)]

/-- Witness for C1: the hypotheses of each conditional branch are
discharged at the concrete elapsed values 90000, 3600, 60 and 59. -/
theorem format_time_ago_spec_witness :
    format_time_ago 90000 = toString ((90000 : Int) / 86400) ++ "d ago"
    ∧ format_time_ago 3600 = toString (((3600 : Int) % 86400) / 3600) ++ "h ago"
    ∧ format_time_ago 60 = toString (((60 : Int) % 86400) / 60) ++ "m ago"
    ∧ format_time_ago 59 = "just now" :=
  ⟨(format_time_ago_spec 90000).1 (by decide),
   (format_time_ago_spec 3600).2.1 (by decide) (by decide),
   (format_time_ago_spec 60).2.2.1 (by decide) (by decide) (by decide),
   (format_time_ago_spec 59).2.2.2.1 (by decide) (by decide)⟩

/-- Claim C10, counterexample: a timestamp exactly 86400 seconds in the
future is strictly in the future (elapsed is negative), yet
format_time_ago returns just now, because the elapsed time normalizes to
days equal to minus one and a zero seconds remainder. -/
theorem format_time_ago_future_just_now :
    (-86400 : Int) < 0 ∧ format_time_ago (-86400) = "just now" := by
  exact ⟨by decide, by decide⟩

/-- Claim C10, amended: for a timestamp s seconds in the future with
0 < s and s at most 82800, the negative elapsed time normalizes to days
equal to minus one with seconds remainder 86400 - s, so format_time_ago
renders the floor of (86400 - s) divided by 3600 followed by h ago (hence
not just now); further in the future (in particular at exact multiples of
86400 seconds, or within 59 seconds above such a multiple) the seconds
remainder drops below 60 and format_time_ago does return just now. -/
theorem format_time_ago_future (s : Int) (h1 : 0 < s) (h2 : s ≤ 82800) :
    format_time_ago (-s) = toString ((86400 - s) / 3600) ++ "h ago" := by
  have hd : (-s) / 86400 = -1 := by omega
  have hm : (-s) % 86400 = 86400 - s := by omega
  simp only [format_time_ago, hd, hm]
  rw [if_neg (by decide), if_pos (by omega)]

/-- Witness for the amended C10: one second in the future renders 23h ago. -/
theorem format_time_ago_future_witness :
    format_time_ago (-1) = "23h ago" := by
  have h := format_time_ago_future 1 (by decide) (by decide)
  rw [h]; decide

theorem strStartsWith_iff (n h : List Char) :
    strStartsWith n h = true ↔ ∃ t, h = n ++ t := by
  induction n generalizing h with
  | nil => simp [strStartsWith]
  | cons a as ih =>
    cases h with
    | nil => simp [strStartsWith]
    | cons b bs =>
      simp only [strStartsWith, Bool.and_eq_true, beq_iff_eq, ih]
      constructor
      · rintro ⟨rfl, t, rfl⟩
        exact ⟨t, rfl⟩
      · rintro ⟨t, ht⟩
        injection ht with h1 h2
        exact ⟨h1.symm, t, h2⟩

theorem hasSubList_iff (n h : List Char) :
    hasSubList n h = true ↔ ∃ l1 l2, h = l1 ++ n ++ l2 := by
  induction h with
  | nil =>
    constructor
    · intro hh
      have hn : n = [] := by
        cases n with
        | nil => rfl
        | cons a as => simp [hasSubList, List.isEmpty] at hh
      exact ⟨[], [], by simp [hn]⟩
    · rintro ⟨l1, l2, hl⟩
      have h2 := hl.symm
      rw [List.append_eq_nil] at h2
      obtain ⟨h3, -⟩ := h2
      rw [List.append_eq_nil] at h3
      obtain ⟨-, rfl⟩ := h3
      rfl
  | cons c rest ih =>
    simp only [hasSubList, Bool.or_eq_true, ih, strStartsWith_iff]
    constructor
    · rintro (⟨t, ht⟩ | ⟨l1, l2, rfl⟩)
      · exact ⟨[], t, by simp [ht]⟩
      · exact ⟨c :: l1, l2, rfl⟩
    · rintro ⟨l1, l2, hl⟩
      cases l1 with
      | nil => exact Or.inl ⟨l2, by simpa using hl⟩
      | cons x xs =>
        injection hl with h1 h2
        exact Or.inr ⟨xs, l2, h2⟩

theorem display_failures_eq (jobsOf : Nat → List Job) (runs : List WorkflowRun) :
    display_failures jobsOf runs
      = (runs.filter fun r => !(get_failed_jobs jobsOf r.id).isEmpty).map
          fun r => ⟨r, (get_failed_jobs jobsOf r.id).map renderJob⟩ := by
  induction runs with
  | nil => rfl
  | cons r rest ih =>
    by_cases hc : (get_failed_jobs jobsOf r.id).isEmpty
    · simp [display_failures, List.filter_cons, hc, ih]
    · simp [display_failures, List.filter_cons, hc, ih]

theorem display_fetch_trace_eq (jobsOf : Nat → List Job)
    (runs : List WorkflowRun) :
    display_fetch_trace jobsOf runs = runs.map WorkflowRun.id := by
  induction runs with
  | nil => rfl
  | cons r rest ih => simp [display_fetch_trace, ih]

theorem get_failed_jobs_nonempty (jobsOf : Nat → List Job) (i : Nat) :
    (get_failed_jobs jobsOf i).isEmpty = false
      ↔ ∃ j ∈ get_jobs_for_run jobsOf i, j.conclusion = "failure" := by
  simp [get_failed_jobs, List.isEmpty_iff, List.filter_eq_nil_iff]

/-- Claim C2: in the PR-scoped retrieval path, a fetched run is retained
exactly when its head SHA equals the head SHA of the PR, or its embedded
pull-request references contain an entry whose number equals the target PR
number: either match alone suffices, a run matching neither is excluded. -/
theorem get_pr_workflow_runs_spec (head : PRHead) (pr_number : Int)
    (fetched : List WorkflowRun) (r : WorkflowRun) :
    r ∈ get_pr_workflow_runs head pr_number fetched ↔
      r ∈ fetched ∧ (r.head_sha = head.sha
        ∨ ∃ q ∈ r.pull_requests, q.number = some pr_number) := by
  simp [get_pr_workflow_runs, List.mem_filter, List.any_eq_true]

/-- Claim C3: a workflow run yields a panel in the report exactly when it
is among the candidate runs and fetching its jobs yields at least one job
whose conclusion is failure; a run with zero failed jobs is skipped, and
nothing in this condition refers to the top-level status of the run. -/
theorem display_failures_spec (jobsOf : Nat → List Job)
    (runs : List WorkflowRun) (r : WorkflowRun) :
    (∃ p ∈ display_failures jobsOf runs, p.run = r) ↔
      r ∈ runs ∧ ∃ j ∈ get_jobs_for_run jobsOf r.id, j.conclusion = "failure" := by
  rw [display_failures_eq]
  simp only [List.mem_map, List.mem_filter, Bool.not_eq_true']
  constructor
  · rintro ⟨p, ⟨r0, ⟨hr0, hq⟩, rfl⟩, hrun⟩
    cases hrun
    exact ⟨hr0, (get_failed_jobs_nonempty jobsOf _).mp hq⟩
  · rintro ⟨hr, hj⟩
    exact ⟨⟨r, (get_failed_jobs jobsOf r.id).map renderJob⟩,
      ⟨r, ⟨hr, (get_failed_jobs_nonempty jobsOf _).mpr hj⟩, rfl⟩, rfl⟩

/-- Claim C4: with a non-empty workflow-name filter, the non-PR selection
path filters the fetched runs to exactly those whose lowercased name
contains the lowercased filter as a contiguous substring, and the retained
runs form a sublist of the fetched list (same relative order). -/
theorem get_workflow_runs_filter_spec (fetched : List WorkflowRun)
    (wn : String) (hwn : wn ≠ "") :
    get_workflow_runs fetched (some wn)
        = fetched.filter (fun r => strContains (strLower r.name) (strLower wn))
    ∧ (∀ r, r ∈ get_workflow_runs fetched (some wn) ↔
        r ∈ fetched ∧ ∃ l1 l2, (strLower r.name).toList
          = l1 ++ (strLower wn).toList ++ l2)
    ∧ (get_workflow_runs fetched (some wn)).Sublist fetched := by
  have hbe : (wn == "") = false := by simpa using hwn
  refine ⟨by simp [get_workflow_runs, hbe], ?_, ?_⟩
  · intro r
    simp [get_workflow_runs, hbe, List.mem_filter, strContains, hasSubList_iff]
  · simp only [get_workflow_runs, hbe, Bool.false_eq_true, if_false]
    exact List.filter_sublist fetched

/-- Witness for C4: with filter ci, the run named My CI Build is retained
(its lowercased name contains ci), instantiating the theorem at a concrete
run list and discharging the non-emptiness hypothesis. -/
theorem get_workflow_runs_filter_witness :
    mkRun 1 "My CI Build"
      ∈ get_workflow_runs [mkRun 1 "My CI Build", mkRun 2 "Deploy"] (some "ci") :=
  ((get_workflow_runs_filter_spec [mkRun 1 "My CI Build", mkRun 2 "Deploy"]
      "ci" (by decide)).2.1 (mkRun 1 "My CI Build")).mpr
    ⟨by decide, "my ".toList, " build".toList, by decide⟩

/-- Claim C5, counterexample: the argument a/ splits into two components
of which the second is empty, so by the claim it should be rejected, but
main proceeds with an empty repository name (the code checks the component
count, never non-emptiness). -/
theorem main_preflight_empty_component :
    split_slash "a/" = ["a", ""]
    ∧ main_preflight (some "tok") "a/" = .proceed "a" "" :=
  ⟨by decide, by decide⟩

/-- Claim C5, amended: with a truthy token, a repository argument whose
split on the slash separator does not have exactly two components (no
slash, or more than one slash) makes main exit with status 1 on the
validation branch, before the API client exists; when the split has
exactly two components, possibly empty ones, main proceeds with them. -/
theorem main_preflight_repo_spec (token : Option String) (repo : String)
    (htok : tokenFalsy token = false) :
    ((split_slash repo).length ≠ 2 → main_preflight token repo = .exitWithError 1)
    ∧ (∀ a b, split_slash repo = [a, b] →
        main_preflight token repo = .proceed a b) := by
  constructor
  · intro hlen
    rcases hsp : split_slash repo with _ | ⟨a, t⟩
    · simp [main_preflight, htok, parseRepoArg, hsp]
    · rcases t with _ | ⟨b, t2⟩
      · simp [main_preflight, htok, parseRepoArg, hsp]
      · rcases t2 with _ | ⟨c, t3⟩
        · exact absurd (by rw [hsp]; rfl) hlen
        · simp [main_preflight, htok, parseRepoArg, hsp]
  · intro a b hab
    simp [main_preflight, htok, parseRepoArg, hab]

/-- Witness for the amended C5: a slash-free argument is rejected with
exit status 1. -/
theorem main_preflight_repo_witness :
    main_preflight (some "tok") "acmewidgets" = .exitWithError 1 :=
  (main_preflight_repo_spec (some "tok") "acmewidgets" (by decide)).1 (by decide)

/-- Claim C6, counterexample: the Python slice runs up to limit does not
bound the candidate list by limit for a negative limit, which the CLI
accepts; at limit minus one with two fetched runs the candidate list has
one entry, and one is not at most minus one. -/
theorem pySliceTo_negative_limit :
    pySliceTo [mkRun 1 "a", mkRun 2 "b"] (-1) = [mkRun 1 "a"]
    ∧ ¬ (((pySliceTo [mkRun 1 "a", mkRun 2 "b"] (-1)).length : Int) ≤ -1) :=
  ⟨by decide, by decide⟩

/-- Claim C6, amended: for a non-negative limit, the candidate list handed
to the rendering stage by main (from either retrieval path) has at most
limit entries, the jobs fetches performed by the rendering stage are
exactly those for the runs of that already-truncated list in order, and
main hands display_failures precisely the truncated list. -/
theorem main_pipeline_limit_spec (jobsOf : Nat → List Job)
    (fetched : List WorkflowRun) (limit : Int) (h : 0 ≤ limit) :
    ((pySliceTo fetched limit).length : Int) ≤ limit
    ∧ display_fetch_trace jobsOf (pySliceTo fetched limit)
        = (pySliceTo fetched limit).map WorkflowRun.id
    ∧ main_pipeline jobsOf fetched limit
        = display_failures jobsOf (pySliceTo fetched limit) := by
  refine ⟨?_, display_fetch_trace_eq jobsOf _, rfl⟩
  simp only [pySliceTo, if_pos h, List.length_take]
  omega

/-- Witness for the amended C6: at limit one with two fetched runs the
candidate list has at most one entry. -/
theorem main_pipeline_limit_witness :
    ((pySliceTo [mkRun 1 "a", mkRun 2 "b"] (1 : Int)).length : Int) ≤ 1 :=
  (main_pipeline_limit_spec (fun _ => []) [mkRun 1 "a", mkRun 2 "b"] 1
    (by decide)).1

/-- Claim C7: the duration cell of a failed-job row is the rendering of
completed_at minus started_at in whole seconds when both timestamps are
present (and non-empty, which is what the Python truthiness test checks),
and the literal dash when either is absent; the concrete timestamps of the
spec render as 0:01:30. -/
theorem durationOf_spec :
    (∀ j : Job, ∀ s e : String, j.started_at = some s → j.completed_at = some e →
        s.isEmpty = false → e.isEmpty = false →
        durationOf j = timedeltaStr (parseTs e - parseTs s))
    ∧ (∀ j : Job, j.started_at = none ∨ j.completed_at = none →
        durationOf j = "-")
    ∧ durationOf ⟨"job", "failure", some "2024-01-01T00:00:00Z",
        some "2024-01-01T00:01:30Z", "u", []⟩ = "0:01:30" := by
  refine ⟨?_, ?_, by decide⟩
  · intro j s e hs he hse hee
    rcases j with ⟨n, c, st, co, u, sts⟩
    cases hs; cases he
    simp [durationOf, hse, hee]
  · intro j hj
    rcases j with ⟨n, c, st, co, u, sts⟩
    rcases hj with hj | hj
    · cases st with
      | none => rfl
      | some s => exact Option.noConfusion hj
    · cases co with
      | none => cases st <;> rfl
      | some e => exact Option.noConfusion hj

/-- Witness for C7: the theorem instantiated at the spec's concrete job,
with the presence hypotheses discharged definitionally. -/
theorem durationOf_spec_witness :
    durationOf ⟨"job", "failure", some "2024-01-01T00:00:00Z",
        some "2024-01-01T00:01:30Z", "u", []⟩
      = timedeltaStr (parseTs "2024-01-01T00:01:30Z"
          - parseTs "2024-01-01T00:00:00Z") :=
  durationOf_spec.1 _ _ _ rfl rfl rfl rfl

theorem failedStepName_cons_pos (s : Step) (rest : List Step)
    (h : s.conclusion = "failure") :
    failedStepName (s :: rest) = s.name := by
  unfold failedStepName
  rw [List.find?_cons_of_pos _ (by simpa using h)]

theorem failedStepName_cons_neg (t : Step) (rest : List Step)
    (h : t.conclusion ≠ "failure") :
    failedStepName (t :: rest) = failedStepName rest := by
  unfold failedStepName
  rw [List.find?_cons_of_neg _ (by simpa using h)]

/-- Claim C8: the failed-step cell of a job is the name of the first step
whose conclusion is failure in the ordered step sequence, and the literal
Unknown when no step fails (an absent step list being the empty one); the
concrete two-step sequence of the spec yields test. -/
theorem failedStepName_spec (steps : List Step) :
    ((∀ s ∈ steps, s.conclusion ≠ "failure") → failedStepName steps = "Unknown")
    ∧ (∀ l1 s l2, steps = l1 ++ s :: l2 →
        (∀ t ∈ l1, t.conclusion ≠ "failure") → s.conclusion = "failure" →
        failedStepName steps = s.name)
    ∧ failedStepName [⟨"build", "success"⟩, ⟨"test", "failure"⟩] = "test" := by
  refine ⟨?_, ?_, by decide⟩
  · intro hall
    have hf : steps.find? (fun s => s.conclusion == "failure") = none := by
      rw [List.find?_eq_none]
      intro x hx
      simpa using hall x hx
    simp [failedStepName, hf]
  · rintro l1 s l2 rfl hl1 hs
    induction l1 with
    | nil => exact failedStepName_cons_pos s l2 hs
    | cons t ts ih =>
      rw [List.cons_append,
        failedStepName_cons_neg t _ (hl1 t (List.mem_cons_self t ts))]
      exact ih fun u hu => hl1 u (List.mem_cons_of_mem t hu)

/-- Witness for C8: the theorem instantiated at a concrete three-step
sequence whose first failing step is the middle one. -/
theorem failedStepName_spec_witness :
    failedStepName [⟨"a", "success"⟩, ⟨"b", "failure"⟩, ⟨"c", "failure"⟩]
      = "b" :=
  (failedStepName_spec _).2.1 [⟨"a", "success"⟩] ⟨"b", "failure"⟩
    [⟨"c", "failure"⟩] rfl (by decide) rfl

/-- Claim C9: a falsy token (absent, or present and empty, after click
resolves the flag with the environment variable as fallback) makes main
exit with status 1 on the first validation branch; the API client is
constructed only on the proceed branch, so no HTTP request is issued. -/
theorem main_preflight_token_spec (token : Option String) (repo : String)
    (h : tokenFalsy token = true) :
    main_preflight token repo = .exitWithError 1 := by
  simp [main_preflight, h]

/-- Witness for C9: an absent token exits with status 1. -/
theorem main_preflight_token_witness :
    main_preflight none "acme/widgets" = .exitWithError 1 :=
  main_preflight_token_spec none "acme/widgets" rfl

end Jolt
